import Mathlib

/-!
Verification of the mmorpg_bot recording pipeline.

Each definition below is a shallow embedding of a function of the
repository, translated from the Python source:

* `AudioRec` embeds `data_collection/recorders/audio_recorder.py`
  (`_pop_samples`, the `_writer_loop` chunk-assembly loop, and
  `_resolve_device`).
* `EventWriter` embeds `data_collection/event_writer.py` (`JsonlWriter`)
  over an explicit model of a Python text file handle.
* `Timer` embeds `core/timing/session_timer.py` (`SessionTimer`).
* `Gamepad` embeds the `_gamepad_loop` of
  `data_collection/recorders/input_recorder.py`.
* `SysRec` embeds `SystemRecorder._emit_error` of
  `data_collection/recorders/system_recorder.py`.
* `Screen` embeds `ScreenRecorder._crop_if_needed` of
  `data_collection/recorders/screen_recorder.py`.

Audio samples (numpy frames) are modelled as integers; the sample values
themselves are never inspected by the buffering code.  Machine floats that
only carry payload data are modelled as rationals.
-/

namespace AudioRec

/-- Embedding of `AudioRecorder._pop_samples`.  The state of the recorder
buffer is the pair of `pending` (the list of queued blocks, front first)
and `count` (the `_pending_samples` counter kept by the Python code).
The function returns the popped samples, the remaining pending blocks and
the updated counter, mirroring the `while needed > 0 and self._pending`
loop: a block shorter than the demand is consumed whole, a longer block is
split at the boundary. -/
def popSamples : Nat → List (List Int) → Nat → List Int × List (List Int) × Nat
  | _, [], count => ([], [], count)
  | needed, current :: rest, count =>
    if needed = 0 then ([], current :: rest, count)
    else if current.length ≤ needed then
      let r := popSamples (needed - current.length) rest (count - current.length)
      (current ++ r.1, r.2.1, r.2.2)
    else
      (current.take needed, current.drop needed :: rest, count - needed)

/-- Embedding of the inner `while self._pending_samples >= self._chunk_frames`
loop of `AudioRecorder._writer_loop`.  The Python loop is unbounded; here it
is given explicit fuel, and the callers pass enough fuel for the loop to
reach its exit condition (see `drainChunks_spec`).  A popped chunk is
recorded only when it is non-empty, mirroring `if chunk.size`. -/
def drainChunks (cf : Nat) : Nat → List (List Int) → Nat → List (List Int) × List (List Int) × Nat
  | 0, pending, count => ([], pending, count)
  | fuel + 1, pending, count =>
    if cf ≤ count then
      let p := popSamples cf pending count
      let r := drainChunks cf fuel p.2.1 p.2.2
      (if p.1.isEmpty then r.1 else p.1 :: r.1, r.2.1, r.2.2)
    else
      ([], pending, count)

/-- Embedding of one iteration of `AudioRecorder._writer_loop` for an
incoming block: append the block to `_pending`, add its length to
`_pending_samples`, then drain full chunks. -/
def ingestBlock (cf : Nat) (pending : List (List Int)) (count : Nat) (block : List Int) :
    List (List Int) × List (List Int) × Nat :=
  drainChunks cf (count + block.length) (pending ++ [block]) (count + block.length)

/-- Embedding of the main receive loop of `AudioRecorder._writer_loop`:
process the delivered blocks in order, collecting every written chunk. -/
def processBlocks (cf : Nat) : List (List Int) → List (List Int) → Nat →
    List (List Int) × List (List Int) × Nat
  | [], pending, count => ([], pending, count)
  | b :: bs, pending, count =>
    let r := ingestBlock cf pending count b
    let rest := processBlocks cf bs r.2.1 r.2.2
    (r.1 ++ rest.1, rest.2.1, rest.2.2)

/-- Embedding of the final-flush epilogue of `AudioRecorder._writer_loop`:
`if self._pending_samples: chunk = self._pop_samples(self._pending_samples);
if chunk.size: self._write_chunk(chunk)`. -/
def finalFlush (pending : List (List Int)) (count : Nat) : List (List Int) :=
  if count = 0 then []
  else
    let p := popSamples count pending count
    if p.1.isEmpty then [] else [p.1]

/-- Embedding of a whole `AudioRecorder._writer_loop` run: start from the
empty buffer, process every delivered block, then flush the remainder.
The result is the list of written chunks in write order.  `cf` is the
`_chunk_frames` attribute, `max(1, int(round(samplerate * chunk_duration)))`. -/
def writerLoop (cf : Nat) (blocks : List (List Int)) : List (List Int) :=
  let r := processBlocks cf blocks [] 0
  r.1 ++ finalFlush r.2.1 r.2.2

theorem popSamples_fst (n : Nat) (ps : List (List Int)) (c : Nat) :
    (popSamples n ps c).1 = ps.flatten.take n := by
  induction ps generalizing n c with
  | nil => simp [popSamples]
  | cons current rest ih =>
    by_cases h0 : n = 0
    · simp [popSamples, h0]
    · by_cases hle : current.length ≤ n
      · simp only [popSamples, if_neg h0, if_pos hle, List.flatten_cons]
        rw [ih, List.take_append_eq_append_take, List.take_of_length_le hle]
      · simp only [popSamples, if_neg h0, if_neg hle, List.flatten_cons]
        rw [List.take_append_eq_append_take,
          Nat.sub_eq_zero_of_le (by omega), List.take_zero, List.append_nil]

theorem popSamples_pending (n : Nat) (ps : List (List Int)) (c : Nat) :
    (popSamples n ps c).2.1.flatten = ps.flatten.drop n := by
  induction ps generalizing n c with
  | nil => simp [popSamples]
  | cons current rest ih =>
    by_cases h0 : n = 0
    · simp [popSamples, h0]
    · by_cases hle : current.length ≤ n
      · simp only [popSamples, if_neg h0, if_pos hle, List.flatten_cons]
        rw [ih, List.drop_append_eq_append_drop,
          List.drop_of_length_le hle, List.nil_append]
      · simp only [popSamples, if_neg h0, if_neg hle, List.flatten_cons]
        rw [List.drop_append_eq_append_drop,
          Nat.sub_eq_zero_of_le (by omega), List.drop_zero]

theorem popSamples_count (n : Nat) (ps : List (List Int)) (c : Nat) :
    (popSamples n ps c).2.2 = c - (popSamples n ps c).1.length := by
  induction ps generalizing n c with
  | nil => simp [popSamples]
  | cons current rest ih =>
    by_cases h0 : n = 0
    · simp [popSamples, h0]
    · by_cases hle : current.length ≤ n
      · simp only [popSamples, if_neg h0, if_pos hle, List.length_append]
        rw [ih]
        omega
      · simp only [popSamples, if_neg h0, if_neg hle, List.length_take]
        omega

theorem popSamples_fst_length (n : Nat) (ps : List (List Int)) (c : Nat) :
    (popSamples n ps c).1.length = min n ps.flatten.length := by
  rw [popSamples_fst, List.length_take]

theorem drainChunks_spec (cf : Nat) (hcf : 1 ≤ cf) :
    ∀ (fuel : Nat) (ps : List (List Int)) (c : Nat),
      c = ps.flatten.length → c ≤ fuel →
      (drainChunks cf fuel ps c).1.flatten ++ (drainChunks cf fuel ps c).2.1.flatten
          = ps.flatten ∧
      (∀ ch ∈ (drainChunks cf fuel ps c).1, ch.length = cf) ∧
      (drainChunks cf fuel ps c).2.2 = (drainChunks cf fuel ps c).2.1.flatten.length ∧
      (drainChunks cf fuel ps c).2.2 < cf := by
  intro fuel
  induction fuel with
  | zero =>
    intro ps c hc hle
    have hc0 : c = 0 := Nat.le_zero.mp hle
    subst hc0
    refine ⟨by simp [drainChunks], by simp [drainChunks], by simp [drainChunks, hc], ?_⟩
    simp only [drainChunks]
    omega
  | succ fuel ih =>
    intro ps c hc hle
    by_cases hguard : cf ≤ c
    · have hlen : (popSamples cf ps c).1.length = cf := by
        rw [popSamples_fst_length, ← hc]
        omega
      have hne : (popSamples cf ps c).1.isEmpty = false := by
        rcases h : (popSamples cf ps c).1 with _ | _
        · rw [h] at hlen
          simp at hlen
          omega
        · simp
      have hpend : (popSamples cf ps c).2.1.flatten = ps.flatten.drop cf :=
        popSamples_pending cf ps c
      have hcount : (popSamples cf ps c).2.2 = c - cf := by
        rw [popSamples_count, hlen]
      have hinv : (popSamples cf ps c).2.2 = (popSamples cf ps c).2.1.flatten.length := by
        rw [hcount, hpend, List.length_drop, hc]
      have hfuel : (popSamples cf ps c).2.2 ≤ fuel := by
        rw [hcount]
        omega
      obtain ⟨ih1, ih2, ih3, ih4⟩ := ih (popSamples cf ps c).2.1 (popSamples cf ps c).2.2
        hinv hfuel
      simp only [drainChunks, if_pos hguard, hne, Bool.false_eq_true, if_false,
        List.flatten_cons]
      refine ⟨?_, ?_, ih3, ih4⟩
      · rw [List.append_assoc, ih1, popSamples_fst, hpend, List.take_append_drop]
      · intro ch hch
        rcases List.mem_cons.mp hch with h | h
        · rw [h, hlen]
        · exact ih2 ch h
    · simp only [drainChunks, if_neg hguard]
      exact ⟨by simp, by simp, hc, by omega⟩

theorem ingestBlock_spec (cf : Nat) (hcf : 1 ≤ cf) (ps : List (List Int)) (c : Nat)
    (b : List Int) (hc : c = ps.flatten.length) :
    (ingestBlock cf ps c b).1.flatten ++ (ingestBlock cf ps c b).2.1.flatten
        = ps.flatten ++ b ∧
    (∀ ch ∈ (ingestBlock cf ps c b).1, ch.length = cf) ∧
    (ingestBlock cf ps c b).2.2 = (ingestBlock cf ps c b).2.1.flatten.length ∧
    (ingestBlock cf ps c b).2.2 < cf := by
  have hlen : c + b.length = (ps ++ [b]).flatten.length := by
    simp [hc]
  obtain ⟨h1, h2, h3, h4⟩ := drainChunks_spec cf hcf (c + b.length) (ps ++ [b])
    (c + b.length) hlen (Nat.le_refl _)
  refine ⟨?_, h2, h3, h4⟩
  rw [ingestBlock] at *
  rw [h1]
  simp

theorem processBlocks_spec (cf : Nat) (hcf : 1 ≤ cf) :
    ∀ (blocks ps : List (List Int)) (c : Nat), c = ps.flatten.length → c < cf →
      (processBlocks cf blocks ps c).1.flatten ++ (processBlocks cf blocks ps c).2.1.flatten
          = ps.flatten ++ blocks.flatten ∧
      (∀ ch ∈ (processBlocks cf blocks ps c).1, ch.length = cf) ∧
      (processBlocks cf blocks ps c).2.2
          = (processBlocks cf blocks ps c).2.1.flatten.length ∧
      (processBlocks cf blocks ps c).2.2 < cf := by
  intro blocks
  induction blocks with
  | nil =>
    intro ps c hc hlt
    exact ⟨by simp [processBlocks], by simp [processBlocks],
      by simp [processBlocks, hc], by simp [processBlocks, hlt]⟩
  | cons b bs ih =>
    intro ps c hc hlt
    obtain ⟨g1, g2, g3, g4⟩ := ingestBlock_spec cf hcf ps c b hc
    obtain ⟨i1, i2, i3, i4⟩ := ih (ingestBlock cf ps c b).2.1 (ingestBlock cf ps c b).2.2
      g3 g4
    simp only [processBlocks, List.flatten_append, List.flatten_cons]
    refine ⟨?_, ?_, i3, i4⟩
    · rw [List.append_assoc, i1, ← List.append_assoc, g1, List.append_assoc]
    · intro ch hch
      rcases List.mem_append.mp hch with h | h
      · exact g2 ch h
      · exact i2 ch h

/-- C1: Audio reassembly conservation.  For every finite sequence of input
blocks delivered to the writer loop of `AudioRecorder`, the concatenation of
all written chunks equals the concatenation of the delivered blocks (so the
total number of samples is conserved and samples keep their original order),
and every chunk except possibly the last contains exactly `cf` samples, where
`cf` is the `_chunk_frames` value `max(1, round(samplerate * chunk_duration))`
(any such value satisfies `1 ≤ cf`); the final partial chunk is flushed when
the loop stops. -/
theorem audio_reassembly_conservation (cf : Nat) (hcf : 1 ≤ cf)
    (blocks : List (List Int)) :
    (writerLoop cf blocks).flatten = blocks.flatten ∧
    ∀ ch ∈ (writerLoop cf blocks).dropLast, ch.length = cf := by
  obtain ⟨h1, h2, h3, h4⟩ := processBlocks_spec cf hcf blocks [] 0 (by simp) (by omega)
  simp only [List.flatten_nil, List.nil_append] at h1
  by_cases hzero : (processBlocks cf blocks [] 0).2.2 = 0
  · have hflat : (processBlocks cf blocks [] 0).2.1.flatten = [] := by
      have h3' := h3
      rw [hzero] at h3'
      exact List.eq_nil_of_length_eq_zero h3'.symm
    have hff : finalFlush (processBlocks cf blocks [] 0).2.1
        (processBlocks cf blocks [] 0).2.2 = [] := by
      simp only [finalFlush]
      rw [if_pos hzero]
    constructor
    · simp only [writerLoop, hff, List.append_nil]
      rw [← h1, hflat, List.append_nil]
    · intro ch hch
      simp only [writerLoop, hff, List.append_nil] at hch
      exact h2 ch (List.dropLast_subset _ hch)
  · have hflatne : (processBlocks cf blocks [] 0).2.1.flatten ≠ [] := by
      intro h
      rw [h] at h3
      simp at h3
      exact hzero h3
    have hfst : (popSamples (processBlocks cf blocks [] 0).2.2
        (processBlocks cf blocks [] 0).2.1 (processBlocks cf blocks [] 0).2.2).1
        = (processBlocks cf blocks [] 0).2.1.flatten := by
      rw [popSamples_fst, h3, List.take_length]
    have hne : (popSamples (processBlocks cf blocks [] 0).2.2
        (processBlocks cf blocks [] 0).2.1 (processBlocks cf blocks [] 0).2.2).1.isEmpty
        = false := by
      rw [hfst]
      cases hcase : (processBlocks cf blocks [] 0).2.1.flatten with
      | nil => exact absurd hcase hflatne
      | cons a t => simp
    have hff : finalFlush (processBlocks cf blocks [] 0).2.1
        (processBlocks cf blocks [] 0).2.2
        = [(processBlocks cf blocks [] 0).2.1.flatten] := by
      simp only [finalFlush]
      rw [if_neg hzero]
      simp only [hne, Bool.false_eq_true, if_false]
      rw [hfst]
    constructor
    · simp only [writerLoop, hff, List.flatten_append, List.flatten_cons,
        List.flatten_nil, List.append_nil]
      rw [h1]
    · intro ch hch
      simp only [writerLoop, hff] at hch
      rw [List.dropLast_concat] at hch
      exact h2 ch hch

/-- Witness for C1 at a concrete input: chunk length 5 with blocks of
lengths 3, 4 and 1 gives one full chunk of 5 samples plus a final flushed
chunk of 3. -/
theorem audio_reassembly_conservation_witness :
    1 ≤ 5 ∧
    ((writerLoop 5 [[1, 2, 3], [4, 5, 6, 7], [8]]).flatten
        = [[1, 2, 3], [4, 5, 6, 7], [8]].flatten ∧
      ∀ ch ∈ (writerLoop 5 [[1, 2, 3], [4, 5, 6, 7], [8]]).dropLast, ch.length = 5) :=
  ⟨by decide, audio_reassembly_conservation 5 (by decide) [[1, 2, 3], [4, 5, 6, 7], [8]]⟩

/-- C9: Pending-buffer invariant of the audio accumulator.  The counter
`_pending_samples` equals the sum of the lengths of the blocks held in
`_pending`: this form is preserved when the writer loop appends a block
(first conjunct), and for every `n` with `0 < n ≤ _pending_samples`,
`_pop_samples(n)` returns exactly the first `n` buffered samples in order,
decreases the counter by exactly `n`, and leaves a buffer whose counter
again equals the sum of the lengths of the remaining blocks. -/
theorem pending_buffer_invariant (n : Nat) (ps : List (List Int)) (c : Nat)
    (b : List Int) (hc : c = (ps.map List.length).sum) (_hn : 0 < n) (hle : n ≤ c) :
    c + b.length = (((ps ++ [b]).map List.length)).sum ∧
    (popSamples n ps c).1 = ps.flatten.take n ∧
    (popSamples n ps c).1.length = n ∧
    (popSamples n ps c).2.2 = c - n ∧
    (popSamples n ps c).2.2 = (((popSamples n ps c).2.1.map List.length)).sum := by
  have hc' : c = ps.flatten.length := by
    rw [hc, List.length_flatten]
  have hlen : (popSamples n ps c).1.length = n := by
    rw [popSamples_fst_length, ← hc']
    omega
  refine ⟨by simp [hc], popSamples_fst n ps c, hlen, ?_, ?_⟩
  · rw [popSamples_count, hlen]
  · rw [popSamples_count, hlen, ← List.length_flatten, popSamples_pending,
      List.length_drop, hc']

/-- Witness for C9 at a concrete input: popping 2 samples from the buffer
holding blocks of lengths 1 and 2 with counter 3. -/
theorem pending_buffer_invariant_witness :
    (3 : Nat) = (([[1], [2, 3]].map List.length)).sum ∧ 0 < 2 ∧ 2 ≤ 3 ∧
    (3 + 1 = ((([[1], [2, 3]] ++ [[4]]).map List.length)).sum ∧
      (popSamples 2 [[1], [2, 3]] 3).1 = ([[1], [2, 3]] : List (List Int)).flatten.take 2 ∧
      (popSamples 2 [[1], [2, 3]] 3).1.length = 2 ∧
      (popSamples 2 [[1], [2, 3]] 3).2.2 = 3 - 2 ∧
      (popSamples 2 [[1], [2, 3]] 3).2.2
          = (((popSamples 2 [[1], [2, 3]] 3).2.1.map List.length)).sum) :=
  ⟨by decide, by decide, by decide,
    pending_buffer_invariant 2 [[1], [2, 3]] 3 [4] (by decide) (by decide) (by decide)⟩

end AudioRec

namespace EventWriter

/-- Model of a CPython text file handle as used by `JsonlWriter`.  `buffer`
holds written but not yet flushed data, `flushed` the data pushed to the
operating system, `flushCount` instruments how many flush calls the handle
has performed.  CPython raises `ValueError` when `write` or `flush` is
called on a closed file, while `close` on a closed file is a no-op. -/
structure FileHandle where
  closed : Bool
  buffer : List String
  flushed : List String
  flushCount : Nat
deriving DecidableEq

/-- Model of `file.write(s)`: raises on a closed handle, else buffers. -/
def FileHandle.write (f : FileHandle) (s : String) : Except String FileHandle :=
  if f.closed then .error "ValueError: I/O operation on closed file"
  else .ok { f with buffer := f.buffer ++ [s] }

/-- Model of `file.flush()`: raises on a closed handle, else moves the
buffered data out and counts one flush. -/
def FileHandle.flush (f : FileHandle) : Except String FileHandle :=
  if f.closed then .error "ValueError: I/O operation on closed file"
  else .ok { f with flushed := f.flushed ++ f.buffer, buffer := [],
                    flushCount := f.flushCount + 1 }

/-- Model of `file.close()`: a no-op on a closed handle, else flushes the
remaining buffer and releases the handle. -/
def FileHandle.close (f : FileHandle) : FileHandle :=
  if f.closed then f
  else { f with flushed := f.flushed ++ f.buffer, buffer := [], closed := true }

/-- Embedding of `JsonlWriter` from `data_collection/event_writer.py`:
the open file handle, the write counter `_n` and the `_flush_every`
threshold.  The internal lock serialises access and is invisible to the
sequential semantics. -/
structure JsonlWriter where
  f : FileHandle
  n : Nat
  flushEvery : Nat
deriving DecidableEq

/-- Embedding of `JsonlWriter.__init__`: opens the output file (fresh
handle) with `_n = 0` and the given `flush_every`. -/
def newJsonlWriter (flushEvery : Nat) : JsonlWriter :=
  ⟨⟨false, [], [], 0⟩, 0, flushEvery⟩

/-- Embedding of `JsonlWriter.write`: append the serialised line plus a
newline, increment `_n`, and flush when `_n % _flush_every == 0`. -/
def JsonlWriter.write (w : JsonlWriter) (line : String) : Except String JsonlWriter :=
  match w.f.write (line ++ "\n") with
  | .error e => .error e
  | .ok f1 =>
    if (w.n + 1) % w.flushEvery = 0 then
      match f1.flush with
      | .error e => .error e
      | .ok f2 => .ok ⟨f2, w.n + 1, w.flushEvery⟩
    else .ok ⟨f1, w.n + 1, w.flushEvery⟩

/-- Embedding of `JsonlWriter.close`: `try: self._f.flush() finally:
self._f.close()`.  The `finally` block closes the handle whether or not
the flush raised; a raised exception propagates as the second component. -/
def JsonlWriter.close (w : JsonlWriter) : JsonlWriter × Option String :=
  match w.f.flush with
  | .ok f2 => (⟨f2.close, w.n, w.flushEvery⟩, none)
  | .error e => (⟨w.f.close, w.n, w.flushEvery⟩, some e)

/-- Run a sequence of `write` calls in order, propagating the first
raised error. -/
def writeAll (w : JsonlWriter) : List String → Except String JsonlWriter
  | [] => .ok w
  | l :: ls =>
    match w.write l with
    | .ok w1 => writeAll w1 ls
    | .error e => .error e

theorem write_step (w : JsonlWriter) (line : String) (hopen : w.f.closed = false)
    (hno : w.flushEvery ≠ 0)
    (hbuf : w.f.buffer.length = w.n % w.flushEvery)
    (hfc : w.f.flushCount = w.n / w.flushEvery) :
    ∃ w', w.write line = .ok w' ∧ w'.f.closed = false ∧
      w'.flushEvery = w.flushEvery ∧ w'.n = w.n + 1 ∧
      w'.f.buffer.length = (w.n + 1) % w.flushEvery ∧
      w'.f.flushCount = (w.n + 1) / w.flushEvery := by
  have hpos : 0 < w.flushEvery := Nat.pos_of_ne_zero hno
  by_cases hmod : (w.n + 1) % w.flushEvery = 0
  · have hdvd : w.flushEvery ∣ w.n + 1 := Nat.dvd_of_mod_eq_zero hmod
    refine ⟨⟨⟨false, [], w.f.flushed ++ (w.f.buffer ++ [line ++ "\n"]),
        w.f.flushCount + 1⟩, w.n + 1, w.flushEvery⟩, ?_, rfl, rfl, rfl, ?_, ?_⟩
    · simp [JsonlWriter.write, FileHandle.write, FileHandle.flush, hopen, hmod]
    · simp [hmod]
    · simp only [hfc]
      rw [Nat.succ_div_of_dvd hdvd]
  · have hdvd : ¬ w.flushEvery ∣ w.n + 1 := by
      intro h
      exact hmod (Nat.mod_eq_zero_of_dvd h)
    refine ⟨⟨⟨false, w.f.buffer ++ [line ++ "\n"], w.f.flushed, w.f.flushCount⟩,
        w.n + 1, w.flushEvery⟩, ?_, rfl, rfl, rfl, ?_, ?_⟩
    · simp [JsonlWriter.write, FileHandle.write, hopen, hmod]
    · have hlt : w.n % w.flushEvery < w.flushEvery := Nat.mod_lt _ hpos
      have hne : w.n % w.flushEvery + 1 ≠ w.flushEvery := by
        intro h
        apply hdvd
        refine ⟨w.n / w.flushEvery + 1, ?_⟩
        have hdm := Nat.div_add_mod w.n w.flushEvery
        have hmul : w.flushEvery * (w.n / w.flushEvery + 1)
            = w.flushEvery * (w.n / w.flushEvery) + w.flushEvery := by ring
        omega
      have hmodeq : (w.n + 1) % w.flushEvery = w.n % w.flushEvery + 1 := by
        conv_lhs => rw [← Nat.div_add_mod w.n w.flushEvery]
        rw [Nat.add_assoc, Nat.mul_add_mod]
        exact Nat.mod_eq_of_lt (by omega)
      simp only [List.length_append, List.length_cons, List.length_nil, hbuf, hmodeq]
    · simp only [hfc]
      rw [Nat.succ_div_of_not_dvd hdvd]

theorem writeAll_spec (N : Nat) (hN : N ≠ 0) :
    ∀ (lines : List String) (w : JsonlWriter), w.f.closed = false →
      w.flushEvery = N → w.f.buffer.length = w.n % N → w.f.flushCount = w.n / N →
      ∃ w', writeAll w lines = .ok w' ∧ w'.f.closed = false ∧ w'.flushEvery = N ∧
        w'.n = w.n + lines.length ∧ w'.f.buffer.length = w'.n % N ∧
        w'.f.flushCount = w'.n / N := by
  intro lines
  induction lines with
  | nil =>
    intro w hopen hfe hbuf hfc
    exact ⟨w, rfl, hopen, hfe, by simp, by rw [hbuf], by rw [hfc]⟩
  | cons l ls ih =>
    intro w hopen hfe hbuf hfc
    obtain ⟨w1, hw1, hopen1, hfe1, hn1, hbuf1, hfc1⟩ :=
      write_step w l hopen (by rw [hfe]; exact hN) (by rw [hfe]; exact hbuf)
        (by rw [hfe]; exact hfc)
    rw [hfe] at hfe1 hbuf1 hfc1
    obtain ⟨w', hw', hopen', hfe', hn', hbuf', hfc'⟩ :=
      ih w1 hopen1 hfe1 (by rw [hbuf1, hn1]) (by rw [hfc1, hn1])
    refine ⟨w', ?_, hopen', hfe', ?_, hbuf', hfc'⟩
    · simp only [writeAll, hw1]
      exact hw'
    · rw [hn', hn1]
      simp [List.length_cons]
      omega

/-- C6: Flush threshold bound.  Starting from a freshly constructed
`JsonlWriter` with `flush_every = N`, after any prefix of `k` writes no
error is raised, the write counter is `k`, the number of flushes performed
is exactly `k / N` (so a flush happened on exactly those writes whose
cumulative ordinal since construction is a multiple of `N`), and at most
`N - 1` written records remain unflushed in the buffer. -/
theorem flush_threshold_bound (N : Nat) (hN : 1 ≤ N) (lines : List String)
    (k : Nat) (hk : k ≤ lines.length) :
    ∃ w', writeAll (newJsonlWriter N) (lines.take k) = .ok w' ∧
      w'.n = k ∧ w'.f.buffer.length = k % N ∧ w'.f.flushCount = k / N ∧
      w'.f.buffer.length ≤ N - 1 := by
  obtain ⟨w', hw', _, _, hn', hbuf', hfc'⟩ :=
    writeAll_spec N (by omega) (lines.take k) (newJsonlWriter N) rfl rfl
      (by simp [newJsonlWriter]) (by simp [newJsonlWriter])
  have hlen : (lines.take k).length = k := by
    rw [List.length_take]
    omega
  have hnk : w'.n = k := by rw [hn', hlen]; simp [newJsonlWriter]
  refine ⟨w', hw', hnk, by rw [hbuf', hnk], by rw [hfc', hnk], ?_⟩
  rw [hbuf', hnk]
  have := Nat.mod_lt k (show 0 < N by omega)
  omega

/-- Witness for C6 at a concrete input: threshold 3, four records written;
after the prefix of all four writes one flush has happened (on the third
write) and one record is unflushed. -/
theorem flush_threshold_bound_witness :
    1 ≤ 3 ∧ 4 ≤ (["a", "b", "c", "d"] : List String).length ∧
    ∃ w', writeAll (newJsonlWriter 3) (["a", "b", "c", "d"].take 4) = .ok w' ∧
      w'.n = 4 ∧ w'.f.buffer.length = 4 % 3 ∧ w'.f.flushCount = 4 / 3 ∧
      w'.f.buffer.length ≤ 3 - 1 :=
  ⟨by decide, by decide, flush_threshold_bound 3 (by decide) ["a", "b", "c", "d"] 4 (by decide)⟩

/-- C2: Idempotent sink close fails: the code raises on the second close.
`JsonlWriter.close` runs `self._f.flush()` before `self._f.close()`, and
CPython raises `ValueError` when `flush` is called on a closed file, so the
second of two consecutive `close()` calls raises instead of being a no-op.
The orchestrating `_stop` path of `apps/recorder_cli.py` invokes `close`
twice on every shutdown (once from the signal handler, once from the
`finally` block), so the second-call behaviour is exercised by the program
itself.  This theorem evaluates the embedded code at that input: one record
is written, the first close flushes and releases the handle exactly once
and raises nothing, and the second close raises `ValueError` while leaving
the flush count at one. -/
theorem double_close_raises :
    ∃ w1, writeAll (newJsonlWriter 25) ["rec"] = .ok w1 ∧
      w1.close.2 = none ∧
      w1.close.1.f.closed = true ∧
      w1.close.1.f.flushCount = 1 ∧
      w1.close.1.f.flushed = ["rec\n"] ∧
      w1.close.1.close.2 = some "ValueError: I/O operation on closed file" ∧
      w1.close.1.close.1.f.flushCount = 1 ∧
      w1.close.1.close.1.f.closed = true := by
  refine ⟨⟨⟨false, ["rec\n"], [], 0⟩, 1, 25⟩, ?_, ?_, ?_, ?_, ?_, ?_, ?_, ?_⟩ <;> rfl

end EventWriter

namespace Timer

/-- Nanoseconds per millisecond, the `NS_PER_MS` constant of
`core/timing/session_timer.py`. -/
def NS_PER_MS : Int := 1000000

/-- Embedding of the `SessionTimer` dataclass.  Monotonic time is passed
explicitly as an integer nanosecond reading; float millisecond durations
are modelled as rationals. -/
structure SessionTimer where
  started_ns : Int
  stopped_ns : Int
  running : Bool
  laps_ms : List Rat
  last : Int
deriving DecidableEq

/-- The dataclass default values: all counters zero, not running. -/
def SessionTimer.init : SessionTimer := ⟨0, 0, false, [], 0⟩

/-- Embedding of `SessionTimer.start`: record the monotonic origin. -/
def SessionTimer.start (t : SessionTimer) (now : Int) : SessionTimer :=
  { t with started_ns := now, last := now, running := true }

/-- Embedding of `SessionTimer.elapsed_ms`: uses the live reading while
running and the stored stop time otherwise, and returns `0.0` when
`started_ns == 0` (that is, when `start()` has never been called). -/
def SessionTimer.elapsed_ms (t : SessionTimer) (now : Int) : Rat :=
  let endNs : Int := if t.running then now else t.stopped_ns
  if t.started_ns = 0 then 0 else ((endNs : Rat) - (t.started_ns : Rat)) / (NS_PER_MS : Rat)

/-- Embedding of `SessionTimer.lap`: `assert self.running` fails fast when
the timer is not running, otherwise the lap duration is appended. -/
def SessionTimer.lap (t : SessionTimer) (now : Int) : Except String (Rat × SessionTimer) :=
  if t.running then
    let d : Rat := ((now : Rat) - (t.last : Rat)) / (NS_PER_MS : Rat)
    .ok (d, { t with laps_ms := t.laps_ms ++ [d], last := now })
  else .error "AssertionError"

/-- Embedding of `SessionTimer.stop`: asserts `running`, stores the stop
time, clears the flag and returns `elapsed_ms`. -/
def SessionTimer.stop (t : SessionTimer) (now : Int) : Except String (Rat × SessionTimer) :=
  if t.running then
    let t2 : SessionTimer := { t with stopped_ns := now, running := false }
    .ok (t2.elapsed_ms now, t2)
  else .error "AssertionError"

/-- C4 counterexample: the claim says querying elapsed time before
`start()` has ever been called fails fast, but `elapsed_ms` has no failure
path at all: on a freshly constructed timer it returns the value `0.0`.
Only `lap()` (and `stop()`) assert; `elapsed_ms` does not. -/
theorem elapsed_before_start_returns_zero :
    SessionTimer.elapsed_ms SessionTimer.init 123456789 = 0 ∧
    SessionTimer.lap SessionTimer.init 123456789 = .error "AssertionError" := by
  constructor <;> rfl

/-- C4 amended: before `start()` has ever been called, `elapsed_ms`
returns `0.0` rather than raising, while `lap()` fails fast with an
assertion; after `start()` at a nonzero monotonic origin, `elapsed_ms`
equals `(monotonic_now - origin)` nanoseconds converted to milliseconds. -/
theorem session_timer_elapsed (t0 : SessionTimer) (now now2 origin : Int)
    (hfresh : t0.started_ns = 0) (hrun : t0.running = false) (horig : origin ≠ 0) :
    t0.elapsed_ms now = 0 ∧
    t0.lap now = .error "AssertionError" ∧
    (t0.start origin).elapsed_ms now2 = ((now2 : Rat) - (origin : Rat)) / (NS_PER_MS : Rat) := by
  refine ⟨?_, ?_, ?_⟩
  · simp [SessionTimer.elapsed_ms, hfresh]
  · simp [SessionTimer.lap, hrun]
  · simp [SessionTimer.start, SessionTimer.elapsed_ms, horig]

/-- Witness for the amended C4 at concrete inputs: the default-constructed
timer, queried at 5 ns, then started at origin 7 ns and read at 9 ns. -/
theorem session_timer_elapsed_witness :
    SessionTimer.init.elapsed_ms 5 = 0 ∧
    SessionTimer.init.lap 5 = .error "AssertionError" ∧
    (SessionTimer.init.start 7).elapsed_ms 9 = ((9 : Rat) - (7 : Rat)) / (NS_PER_MS : Rat) :=
  session_timer_elapsed SessionTimer.init 5 9 7 rfl rfl (by decide)

end Timer

/-- Model of the Python `str.lower()` method over the ASCII range,
character by character.  Lean's own `String.toLower` is defined by
well-founded recursion and does not evaluate inside the kernel, so the
embedding maps over the character list instead. -/
def lowerStr (s : String) : String := String.mk (s.toList.map Char.toLower)

namespace Gamepad

/-- Model of one event delivered by `inputs.get_gamepad()`: the fields the
loop reads through `getattr`, plus the index the loop derives for the
source device via `device_map.get(id(event.device), 0)`. -/
structure RawEvent where
  ev_type : String
  code : Option String
  state : Option Int
  timestamp : Option Rat
  device : Option Nat
deriving DecidableEq

/-- The payload dictionary built by `_gamepad_loop` for one event. -/
structure GamepadPayload where
  device : String
  index : Nat
  event : String
  code : Option String
  state : Option Int
  timestamp : Option Rat
deriving DecidableEq

/-- Embedding of the payload construction inside `_gamepad_loop`:
`event` is `ev_type.lower() or "unknown"`, `code` and `state` are passed
through raw, `timestamp` is attached when present, and the index is the
`device_map` lookup with default 0. -/
def toPayload (e : RawEvent) : GamepadPayload :=
  ⟨"gamepad", e.device.getD 0,
    if lowerStr e.ev_type = "" then "unknown" else lowerStr e.ev_type,
    e.code, e.state, e.timestamp⟩

/-- Embedding of the body of `_gamepad_loop` for one batch returned by
`inputs.get_gamepad()`: `Sync` events are skipped, every other event is
emitted. -/
def processBatch (batch : List RawEvent) : List GamepadPayload :=
  (batch.filter (fun e => e.ev_type != "Sync")).map toPayload

/-- Embedding of a `_gamepad_loop` run over a list of poll results (the
successive returns of `inputs.get_gamepad()`), collecting every emitted
gamepad event in order. -/
def gamepadLoop (polls : List (List RawEvent)) : List GamepadPayload :=
  (polls.map processBatch).flatten

theorem gamepadLoop_eq (polls : List (List RawEvent)) :
    gamepadLoop polls
      = (polls.flatten.filter (fun e => e.ev_type != "Sync")).map toPayload := by
  induction polls with
  | nil => rfl
  | cons p ps ih =>
    simp only [gamepadLoop, List.map_cons, List.flatten_cons, List.filter_append,
      List.map_append] at ih ⊢
    rw [ih]
    rfl

/-- C3 counterexample: two successive polls each delivering the identical
non-`Sync` event produce two emitted events, not at most one.  The loop
performs no snapshot caching or field-wise comparison: change suppression
is delegated entirely to the backend, which the claim contradicts. -/
theorem gamepad_identical_polls_emit_twice :
    (gamepadLoop [[⟨"Absolute", some "ABS_X", some 1000, none, none⟩],
        [⟨"Absolute", some "ABS_X", some 1000, none, none⟩]]).length = 2 ∧
    ¬ ((gamepadLoop [[⟨"Absolute", some "ABS_X", some 1000, none, none⟩],
        [⟨"Absolute", some "ABS_X", some 1000, none, none⟩]]).length ≤ 1) := by
  constructor
  · rfl
  · decide

/-- C3 amended: while the gamepad capture loop is running, one event is
emitted for every non-`Sync` event delivered by the backend, in delivery
order, with no change suppression performed by the recorder itself;
in particular repeated identical deliveries each emit, and a gamepad held
at idle produces zero events only because the backend then delivers no
events at all. -/
theorem gamepad_emits_every_nonsync (polls : List (List RawEvent)) :
    gamepadLoop polls
      = (polls.flatten.filter (fun e => e.ev_type != "Sync")).map toPayload :=
  gamepadLoop_eq polls

/-- C5 counterexample: a trigger reading of raw magnitude 5 (well below
any deadzone) is emitted with its raw state 5, not normalised to 0.0: the
loop applies no deadzone handling or linear mapping whatsoever. -/
theorem gamepad_trigger_not_normalized :
    gamepadLoop [[⟨"Absolute", some "ABS_Z", some 5, none, none⟩]]
      = [⟨"gamepad", 0, "absolute", some "ABS_Z", some 5, none⟩] ∧
    some (5 : Int) ≠ some (0 : Int) := by
  constructor
  · decide
  · decide

/-- C5 amended: every emitted gamepad event carries the raw backend state
unchanged; no deadzone clamping and no linear mapping into [0,1] or [-1,1]
is applied to triggers or stick axes. -/
theorem gamepad_state_passthrough (polls : List (List RawEvent)) (e : RawEvent)
    (hmem : e ∈ polls.flatten) (hns : e.ev_type ≠ "Sync") :
    toPayload e ∈ gamepadLoop polls ∧ (toPayload e).state = e.state := by
  constructor
  · rw [gamepadLoop_eq]
    refine List.mem_map_of_mem toPayload (List.mem_filter.mpr ⟨hmem, ?_⟩)
    simp [hns]
  · rfl

/-- Witness for the amended C5 at a concrete input: a single poll with one
non-`Sync` event. -/
theorem gamepad_state_passthrough_witness :
    (⟨"Absolute", some "ABS_RX", some (-3), none, none⟩ : RawEvent)
        ∈ ([[⟨"Absolute", some "ABS_RX", some (-3), none, none⟩]] :
            List (List RawEvent)).flatten ∧
    ("Absolute" : String) ≠ "Sync" ∧
    (toPayload ⟨"Absolute", some "ABS_RX", some (-3), none, none⟩
        ∈ gamepadLoop [[⟨"Absolute", some "ABS_RX", some (-3), none, none⟩]] ∧
      (toPayload ⟨"Absolute", some "ABS_RX", some (-3), none, none⟩).state
        = (⟨"Absolute", some "ABS_RX", some (-3), none, none⟩ : RawEvent).state) :=
  ⟨by simp, by decide,
    gamepad_state_passthrough [[⟨"Absolute", some "ABS_RX", some (-3), none, none⟩]]
      ⟨"Absolute", some "ABS_RX", some (-3), none, none⟩ (by simp) (by decide)⟩

end Gamepad

namespace SysRec

/-- State of `SystemRecorder` relevant to error emission: the
`_emitted_errors` set (modelled as the list of distinct messages in
insertion order) and the messages of the notice events written so far. -/
structure SysState where
  emitted : List String
  events : List String
deriving DecidableEq

/-- Embedding of `SystemRecorder._emit_error`: return without emitting
when the message is falsy (empty) or already in `_emitted_errors`,
otherwise record it and write one notice event. -/
def emitError (s : SysState) (msg : String) : SysState :=
  if msg = "" ∨ msg ∈ s.emitted then s
  else ⟨s.emitted ++ [msg], s.events ++ [msg]⟩

/-- Run a sequence of error reports through `_emit_error` within one
freshly constructed `SystemRecorder` (empty `_emitted_errors`). -/
def runReports (msgs : List String) : SysState := msgs.foldl emitError ⟨[], []⟩

theorem emitError_fold (msgs : List String) (s : SysState)
    (hinv : ∀ m, s.events.count m = if m ∈ s.emitted then 1 else 0)
    (hempty : "" ∉ s.emitted) :
    (∀ m, (msgs.foldl emitError s).events.count m
        = if m ∈ (msgs.foldl emitError s).emitted then 1 else 0) ∧
    "" ∉ (msgs.foldl emitError s).emitted ∧
    (∀ m, m ∈ (msgs.foldl emitError s).emitted
        ↔ (m ∈ s.emitted ∨ (m ≠ "" ∧ m ∈ msgs))) := by
  induction msgs generalizing s with
  | nil =>
    refine ⟨hinv, hempty, fun m => ?_⟩
    simp
  | cons msg rest ih =>
    by_cases hskip : msg = "" ∨ msg ∈ s.emitted
    · have hstep : emitError s msg = s := by
        simp only [emitError, if_pos hskip]
      obtain ⟨i1, i2, i3⟩ := ih s hinv hempty
      rw [List.foldl_cons, hstep]
      refine ⟨i1, i2, fun m => ?_⟩
      rw [i3 m]
      constructor
      · rintro (h | h)
        · exact Or.inl h
        · exact Or.inr ⟨h.1, List.mem_cons_of_mem _ h.2⟩
      · rintro (h | ⟨hne, hm⟩)
        · exact Or.inl h
        · rcases List.mem_cons.mp hm with h | h
          · subst h
            rcases hskip with h' | h'
            · exact absurd h' hne
            · exact Or.inl h'
          · exact Or.inr ⟨hne, h⟩
    · push_neg at hskip
      obtain ⟨hne, hnotmem⟩ := hskip
      have hstep : emitError s msg = ⟨s.emitted ++ [msg], s.events ++ [msg]⟩ := by
        simp only [emitError]
        rw [if_neg (by push_neg; exact ⟨hne, hnotmem⟩)]
      have hinv2 : ∀ m, (s.events ++ [msg]).count m
          = if m ∈ s.emitted ++ [msg] then 1 else 0 := by
        intro m
        rw [List.count_append, hinv m]
        by_cases hm : m = msg
        · subst hm
          simp [hnotmem]
        · have hcnt : List.count m [msg] = 0 := by
            simp [hm]
          rw [hcnt]
          simp only [List.mem_append, List.mem_cons, List.not_mem_nil, or_false]
          by_cases hmem : m ∈ s.emitted
          · simp [hmem]
          · simp [hmem, hm]
      have hempty2 : "" ∉ s.emitted ++ [msg] := by
        simp only [List.mem_append, List.mem_cons, List.not_mem_nil, or_false]
        rintro (h | h)
        · exact hempty h
        · exact hne h.symm
      obtain ⟨i1, i2, i3⟩ := ih ⟨s.emitted ++ [msg], s.events ++ [msg]⟩ hinv2 hempty2
      rw [List.foldl_cons, hstep]
      refine ⟨i1, i2, fun m => ?_⟩
      rw [i3 m]
      simp only [List.mem_append, List.mem_cons, List.not_mem_nil, or_false]
      constructor
      · rintro (⟨h | h⟩ | ⟨hm, hmem⟩)
        · exact Or.inl h
        · subst h
          exact Or.inr ⟨hne, Or.inl rfl⟩
        · exact Or.inr ⟨hm, Or.inr hmem⟩
      · rintro (h | ⟨hm, h | h⟩)
        · exact Or.inl (Or.inl h)
        · subst h
          exact Or.inl (Or.inr rfl)
        · exact Or.inr ⟨hm, h⟩

/-- C8 counterexample: an error report whose message is the empty string
is dropped by the `if not message` guard, so this distinct message of the
report sequence triggers zero notice events, not exactly one. -/
theorem empty_error_never_emitted :
    ("" ∈ ([""] : List String)) ∧
    (runReports [""]).events.count "" = 0 ∧
    ¬ ((runReports [""]).events.count "" = 1) := by
  refine ⟨by decide, rfl, by decide⟩

/-- C8 amended: over any sequence of error reports during one
`SystemRecorder` session, identical messages are emitted at most once;
each distinct non-empty message triggers exactly one notice event, and
empty messages are suppressed entirely (zero events). -/
theorem error_dedup (msgs : List String) (m : String) :
    (runReports msgs).events.count m = if m ≠ "" ∧ m ∈ msgs then 1 else 0 := by
  obtain ⟨i1, _, i3⟩ := emitError_fold msgs ⟨[], []⟩ (by intro m; simp) (by simp)
  rw [runReports, i1 m]
  have hiff := i3 m
  simp only [List.not_mem_nil, false_or] at hiff
  by_cases h : m ≠ "" ∧ m ∈ msgs
  · rw [if_pos (hiff.mpr h), if_pos h]
  · rw [if_neg (fun hm => h (hiff.mp hm)), if_neg h]

end SysRec

namespace DeviceRes

/-- Model of the Python substring test `needle in hay` on strings, via
the character lists: true iff `needle` occurs contiguously in `hay`
(the empty needle always matches, as in Python). -/
def containsSeq (needle : List Char) : List Char → Bool
  | [] => needle.isEmpty
  | c :: rest => needle.isPrefixOf (c :: rest) || containsSeq needle rest

/-- Boolean form of `needle in hay` for strings. -/
def strHas (hay needle : String) : Bool := containsSeq needle.toList hay.toList

/-- The fields of a `sounddevice` device-info dictionary read by
`_resolve_device`: `name` (defaulting to the empty string), `hostapi`
(possibly absent) and the channel maxima (defaulting to 0). -/
structure DeviceInfo where
  name : String
  hostapi : Option Int
  maxInputChannels : Int
  maxOutputChannels : Int
deriving DecidableEq

/-- The user supplied device specifier: an index, a name substring, or
nothing. -/
inductive DeviceSpec where
  | byIndex (i : Int)
  | byName (s : String)
  | unspecified
deriving DecidableEq

/-- Model of the Python truthiness chain `a or b` on integers: the first
operand unless it is zero. -/
def orNonzero (a b : Int) : Int := if a ≠ 0 then a else b

/-- The `hostapi_name and "wasapi" in hostapi_name.lower()` test of
`_resolve_device`: an absent or empty host-API name is falsy. -/
def supportsLoopback : Option String → Bool
  | some nm => (nm != "") && strHas (lowerStr nm) "wasapi"
  | none => false

/-- Model of `sd.query_devices(index)`: the indexed entry, or a backend
error for an out-of-range index. -/
def queryDevice (devices : List DeviceInfo) (i : Int) : Except String DeviceInfo :=
  if 0 ≤ i then
    match devices[i.toNat]? with
    | some d => .ok d
    | none => .error "PortAudioError: invalid device index"
  else .error "PortAudioError: invalid device index"

/-- The fallback of `_resolve_device` when no index was determined:
error when no devices exist, else device 0. -/
def selectFirst (devices : List DeviceInfo) : Except String (Int × DeviceInfo) :=
  match devices with
  | [] => .error "No audio devices available"
  | d :: _ => .ok (0, d)

/-- Embedding of the device-selection half of `AudioRecorder._resolve_device`
(everything up to and including the `info` lookup): an integer specifier is
used as is, a string specifier selects the first device whose lowered name
contains the lowered specifier (error when none matches), no specifier
takes the default input device when it is set and non-negative and
otherwise falls back to device 0. -/
def selectDevice (spec : DeviceSpec) (devices : List DeviceInfo)
    (defaultInput : Option Int) : Except String (Int × DeviceInfo) :=
  match spec with
  | .byIndex i =>
    match queryDevice devices i with
    | .ok info => .ok (i, info)
    | .error e => .error e
  | .byName s =>
    match devices.findIdx? (fun d => strHas (lowerStr d.name) (lowerStr s)) with
    | some i =>
      match queryDevice devices (Int.ofNat i) with
      | .ok info => .ok (Int.ofNat i, info)
      | .error e => .error e
    | none => .error "Audio device not found"
  | .unspecified =>
    match defaultInput with
    | some d =>
      if 0 ≤ d then
        match queryDevice devices d with
        | .ok info => .ok (d, info)
        | .error e => .error e
      else selectFirst devices
    | none => selectFirst devices

/-- Embedding of the host-API name lookup of `_resolve_device`:
`hostapis[idx].get("name")` only when the index is present and in range. -/
def hostapiName (hostapis : List String) (info : DeviceInfo) : Option String :=
  match info.hostapi with
  | none => none
  | some i => if 0 ≤ i ∧ i < (hostapis.length : Int) then hostapis[i.toNat]? else none

/-- Embedding of the channel-derivation half of `_resolve_device`:
`derived = requested or max_input or max_output or 1`; a device with zero
input channels and some output channels switches to loopback capture when
preferred and supported by the host API (capping `derived` at the output
channel count) and otherwise raises; an ordinary input device caps
`derived` at its input channel count; the result is at least 1.  The
second component of the result records whether WASAPI loopback settings
were attached. -/
def deriveSettings (info : DeviceInfo) (hn : Option String) (preferLoopback : Bool)
    (requestedChannels : Option Int) : Except String (Int × Bool) :=
  let maxInput := info.maxInputChannels
  let maxOutput := info.maxOutputChannels
  let derived0 := orNonzero (requestedChannels.getD 0)
      (orNonzero maxInput (orNonzero maxOutput 1))
  if maxInput = 0 ∧ 0 < maxOutput then
    if preferLoopback && supportsLoopback hn then
      .ok (max 1 (orNonzero (min derived0 maxOutput) (orNonzero maxOutput 1)), true)
    else
      .error "Selected device does not expose input channels"
  else
    if 0 < maxInput then .ok (max 1 (min derived0 maxInput), false)
    else .ok (max 1 derived0, false)

/-- Embedding of the whole `AudioRecorder._resolve_device`: selection, then
host-API lookup, then channel derivation.  `AudioRecorder.start` calls this
first and propagates its exception, so `start()` does not proceed when
resolution fails. -/
def resolveDevice (spec : DeviceSpec) (devices : List DeviceInfo)
    (hostapis : List String) (defaultInput : Option Int) (preferLoopback : Bool)
    (requestedChannels : Option Int) : Except String (Int × DeviceInfo × Int × Bool) :=
  match selectDevice spec devices defaultInput with
  | .error e => .error e
  | .ok (i, info) =>
    match deriveSettings info (hostapiName hostapis info) preferLoopback
        requestedChannels with
    | .error e => .error e
    | .ok (ch, lb) => .ok (i, info, ch, lb)

/-- C7: Loopback fallback on device resolution.  Whenever resolution
selects a device with zero input channels and a positive output channel
count: if loopback is preferred and the host API supports loopback capture
(WASAPI), derivation succeeds in loopback mode with a channel count of at
least 1 capped at the output channel count; otherwise derivation raises
the device-unavailable error, and the full resolution performed at the
start of `AudioRecorder.start` returns that error, so `start()` does not
proceed. -/
theorem loopback_fallback (info : DeviceInfo) (hn : Option String) (pl : Bool)
    (req : Option Int) (hin : info.maxInputChannels = 0)
    (hout : 0 < info.maxOutputChannels) :
    ((pl && supportsLoopback hn) = true →
      ∃ ch, deriveSettings info hn pl req = .ok (ch, true) ∧
        1 ≤ ch ∧ ch ≤ info.maxOutputChannels) ∧
    ((pl && supportsLoopback hn) = false →
      deriveSettings info hn pl req
        = .error "Selected device does not expose input channels") ∧
    (∀ (spec : DeviceSpec) (devices : List DeviceInfo) (hostapis : List String)
        (dflt : Option Int) (i : Int),
      selectDevice spec devices dflt = .ok (i, info) →
      hostapiName hostapis info = hn →
      (pl && supportsLoopback hn) = false →
      resolveDevice spec devices hostapis dflt pl req
        = .error "Selected device does not expose input channels") := by
  have herr : (pl && supportsLoopback hn) = false →
      deriveSettings info hn pl req
        = .error "Selected device does not expose input channels" := by
    intro hb
    simp only [deriveSettings]
    rw [if_pos ⟨hin, hout⟩, if_neg (by simp [hb])]
  refine ⟨?_, herr, ?_⟩
  · intro hb
    refine ⟨max 1 (orNonzero
        (min (orNonzero (req.getD 0) (orNonzero info.maxInputChannels
          (orNonzero info.maxOutputChannels 1))) info.maxOutputChannels)
        (orNonzero info.maxOutputChannels 1)), ?_, ?_, ?_⟩
    · simp only [deriveSettings]
      rw [if_pos ⟨hin, hout⟩, if_pos hb]
    · exact le_max_left 1 _
    · simp only [orNonzero, hin]
      split_ifs <;> omega
  · intro spec devices hostapis dflt i hsel hhn hb
    simp only [resolveDevice, hsel, hhn, herr hb]

/-- Witness for C7 at a concrete input: a WASAPI output-only stereo device
resolved with loopback preferred, and the same device rejected when
loopback is not preferred. -/
theorem loopback_fallback_witness :
    (⟨"Speakers (Realtek)", some 0, 0, 2⟩ : DeviceInfo).maxInputChannels = 0 ∧
    (0 : Int) < (⟨"Speakers (Realtek)", some 0, 0, 2⟩ : DeviceInfo).maxOutputChannels ∧
    (∃ ch, deriveSettings ⟨"Speakers (Realtek)", some 0, 0, 2⟩
        (some "Windows WASAPI") true none = .ok (ch, true) ∧
      1 ≤ ch ∧ ch ≤ (⟨"Speakers (Realtek)", some 0, 0, 2⟩ : DeviceInfo).maxOutputChannels) ∧
    deriveSettings ⟨"Speakers (Realtek)", some 0, 0, 2⟩
        (some "Windows WASAPI") false none
      = .error "Selected device does not expose input channels" := by
  refine ⟨by decide, by decide, ?_, ?_⟩
  · exact (loopback_fallback ⟨"Speakers (Realtek)", some 0, 0, 2⟩
      (some "Windows WASAPI") true none (by decide) (by decide)).1 (by decide)
  · exact (loopback_fallback ⟨"Speakers (Realtek)", some 0, 0, 2⟩
      (some "Windows WASAPI") false none (by decide) (by decide)).2.1 (by decide)

end DeviceRes

namespace Screen

/-- Size model of a PIL image: `img.size` returns `(width, height)`. -/
structure PILImage where
  width : Nat
  height : Nat
deriving DecidableEq

/-- Embedding of the clamping computation of `ScreenRecorder._crop_if_needed`:
`left_c = max(0, min(w, left))`, `top_c = max(0, min(h, top))`,
`right_c = max(left_c, min(w, right))`, `bottom_c = max(top_c, min(h, bottom))`. -/
def cropBox (w h : Nat) (left top right bottom : Int) : Int × Int × Int × Int :=
  let left_c := max 0 (min (w : Int) left)
  let top_c := max 0 (min (h : Int) top)
  let right_c := max left_c (min (w : Int) right)
  let bottom_c := max top_c (min (h : Int) bottom)
  (left_c, top_c, right_c, bottom_c)

/-- Embedding of `ScreenRecorder._crop_if_needed`: with no held region the
frame is returned unchanged; with a region, the clamped box is applied with
`img.crop`, whose result has size `(right_c - left_c, bottom_c - top_c)`. -/
def crop_if_needed (img : PILImage) (region : Option (Int × Int × Int × Int)) : PILImage :=
  match region with
  | none => img
  | some (l, t, r, b) =>
    let bx := cropBox img.width img.height l t r b
    ⟨(bx.2.2.1 - bx.1).toNat, (bx.2.2.2 - bx.2.1).toNat⟩

/-- C10: Crop clamping safety.  For every frame size and every held
region, including regions partly or wholly outside the image or with
inverted corners, the computed crop box satisfies
`0 ≤ left_c ≤ right_c ≤ w` and `0 ≤ top_c ≤ bottom_c ≤ h`, so the PIL
crop always receives a valid box and returns an image; with no region the
frame is returned unchanged. -/
theorem crop_clamping_safe (w h : Nat) (l t r b : Int) (img : PILImage) :
    0 ≤ (cropBox w h l t r b).1 ∧
    (cropBox w h l t r b).1 ≤ (cropBox w h l t r b).2.2.1 ∧
    (cropBox w h l t r b).2.2.1 ≤ (w : Int) ∧
    0 ≤ (cropBox w h l t r b).2.1 ∧
    (cropBox w h l t r b).2.1 ≤ (cropBox w h l t r b).2.2.2 ∧
    (cropBox w h l t r b).2.2.2 ≤ (h : Int) ∧
    crop_if_needed img none = img := by
  simp only [cropBox, crop_if_needed]
  refine ⟨?_, ?_, ?_, ?_, ?_, ?_, trivial⟩ <;> omega

end Screen
